import Mathlib

/-!
Verification development for the Tor ControlPort client repository
(controlPort.jsm and its earlier drafts, and torCircuitDisplay.js).

Strings from the JavaScript source are modelled as `List Char` (written
`str.data` for literals); JavaScript objects used as string-keyed maps are
modelled as association lists; the stateful callback chains are modelled as
explicit state machines whose outputs (socket writes, reply deliveries,
error notifications) are recorded in lists, in the order the corresponding
callbacks would run.

The file has two parts: first the definitions embedding the source, then
the lemmas and theorems about them.
-/

namespace ControlPort

/-! ## Part 1: definitions -/

/-! ### Line framer: io.onDataFromOnLine

The framer keeps a `pendingData` buffer; on each incoming chunk it computes
`(pendingData + data).split("\r\n")`, emits all pieces but the last, and the
last piece becomes the new `pendingData`.  `splitCRLF` embeds
`String.prototype.split("\r\n")` for character lists: the two-character
delimiter is matched greedily left to right (it cannot overlap itself). -/

def consHead (c : Char) : List (List Char) → List (List Char)
  | [] => [[c]]
  | l :: ls => (c :: l) :: ls

def splitCRLF : List Char → List (List Char)
  | [] => [[]]
  | [c] => [[c]]
  | c :: d :: rest =>
    if c = '\r' ∧ d = '\n' then [] :: splitCRLF rest
    else consHead c (splitCRLF (d :: rest))

/-- Runs the callback returned by `io.onDataFromOnLine` over a sequence of
chunks, threading the `pendingData` buffer.  Result: (final `pendingData`,
lines passed to `onLine` in order). -/
def framerRun (pending : List Char) : List (List Char) → List Char × List (List Char)
  | [] => (pending, [])
  | c :: cs =>
    let pieces := splitCRLF (pending ++ c)
    let r := framerRun (pieces.getLastD []) cs
    (r.1, pieces.dropLast ++ r.2)

/-! ### Message assembler: io.onLineFromOnMessage (= tor.onLineFromOnMessage)

The assembler pushes each line onto `pendingLines`; when the new line
matches `/^\d\d\d /` and either it is the only pending line or the first
pending line starts with the same three status digits, the pending lines are
joined with CRLF into one message and the buffer is cleared. -/

def isFinalLine (l : List Char) : Bool :=
  match l with
  | a :: b :: c :: ' ' :: _ => a.isDigit && b.isDigit && c.isDigit
  | _ => false

def joinCRLF (ls : List (List Char)) : List Char :=
  List.intercalate ['\r', '\n'] ls

def onLineStep (pendingLines : List (List Char)) (line : List Char) :
    List (List Char) × List (List Char) :=
  let pl := pendingLines ++ [line]
  if isFinalLine line &&
      (pl.length == 1 || (line.take 3).isPrefixOf (pl.headD [])) then
    ([], [joinCRLF pl])
  else (pl, [])

/-- Runs the assembler over a list of lines: (final `pendingLines`,
messages passed to `onMessage` in order). -/
def onLineRun (st : List (List Char)) : List (List Char) → List (List Char) × List (List Char)
  | [] => (st, [])
  | l :: ls =>
    let s1 := onLineStep st l
    let s2 := onLineRun s1.1 ls
    (s2.1, s1.2 ++ s2.2)

/-! ### Framer composed with assembler, as wired in io.controlSocket:
`io.onDataFromOnLine(io.onLineFromOnMessage(onMessage))`. -/

structure PipeSt where
  pendingData : List Char
  pendingLines : List (List Char)
deriving DecidableEq, Repr

def onDataStep (st : PipeSt) (chunk : List Char) : PipeSt × List (List Char) :=
  let pieces := splitCRLF (st.pendingData ++ chunk)
  let a := onLineRun st.pendingLines pieces.dropLast
  (⟨pieces.getLastD [], a.1⟩, a.2)

/-- Runs framer+assembler over a sequence of raw socket chunks:
(final state, messages emitted in order). -/
def onDataRun (st : PipeSt) : List (List Char) → PipeSt × List (List Char)
  | [] => (st, [])
  | c :: cs =>
    let s1 := onDataStep st c
    let s2 := onDataRun s1.1 cs
    (s2.1, s1.2 ++ s2.2)

/-! ### GETINFO key-value extraction

`tor.infoKVStringsFromMessage` (= `info.kvStringsFromMessage`,
`info.keyValueStringsFromMessage`) applies the regular expression
`/^(250\+[\s\S]+?^\.|250-.+?)$/gmi` to a message.  Both alternatives are
anchored at line starts; the first, lazy alternative consumes from a line
beginning `250+` up to the first subsequent line consisting of a single
dot; the second matches a line beginning `250-` with at least one further
character.  On a CRLF-separated message this is the line scan below.
`splitAtDotLine` splits a line list at the first line equal to ".". -/

def splitAtDotLine : List (List Char) → Option (List (List Char) × List (List Char))
  | [] => none
  | l :: rest =>
    if l = ['.'] then some ([], rest)
    else (splitAtDotLine rest).map (fun p => (l :: p.1, p.2))

/-- Line scan implementing the global regex search.  `fuel` bounds the
recursion; any `fuel ≥ lines.length` computes the full scan (each step
consumes at least one line). -/
def kvScanF (fuel : Nat) (lines : List (List Char)) : List (List Char) :=
  match fuel, lines with
  | 0, _ => []
  | _, [] => []
  | fuel + 1, l :: rest =>
    if ("250+".data).isPrefixOf l then
      match splitAtDotLine rest with
      | some (body, after) => joinCRLF (l :: body ++ [['.']]) :: kvScanF fuel after
      | none => kvScanF fuel rest
    else if ("250-".data).isPrefixOf l && decide (5 ≤ l.length) then
      l :: kvScanF fuel rest
    else kvScanF fuel rest

def infoKVStringsFromMessage (msg : List Char) : List (List Char) :=
  let lines := splitCRLF msg
  kvScanF lines.length lines

/-! ### tor.stringToKV (= info.stringToKV)

`key` comes from `/^250[\+-](.+?)=/mi` applied to the KV string: the first
line that begins with `250+` or `250-` and has a `=` preceded by at least
one character; the key is the lazy capture, i.e. the characters between the
status prefix and the first `=` of that line.  `value` first tries
`/250\-.+?=(.*?)$/mi` (leftmost occurrence of `250-`, at any position,
followed on the same line by at least one character and a `=`; capture runs
to the end of that line) and then `/250\+.+?=([\s\S]*?)^\.$/mi` (leftmost
occurrence of `250+` with a `=` on its line; the lazy capture runs from
after the first `=` to just before the first subsequent line consisting of
a single dot).  If neither matches, the value is `null` (`none`). -/

def nonTerm (c : Char) : Bool := !(c = '\r' || c = '\n')

/-- Characters of `cs` up to the end of the current line (JS `.` excludes
line terminators; `$` in multiline mode matches before `\r` or `\n`). -/
def lineOf (cs : List Char) : List Char := cs.takeWhile nonTerm

/-- After a `250-`/`250+` prefix, the lazy `.+?=` submatch: succeeds if the
current line contains `=` after at least one character, returning the
characters after that first `=` (rest of the whole string, not just the
line). -/
def eqOnLine (cs : List Char) : Option (List Char) :=
  match cs with
  | [] => none
  | c :: rest =>
    if !(nonTerm c) then none
    else if c = '=' then none
    else go rest
where
  go : List Char → Option (List Char)
    | [] => none
    | c :: rest =>
      if !(nonTerm c) then none
      else if c = '=' then some rest
      else go rest

/-- Index (in `cs`) of the first position starting a line that consists of
a single dot, given the character immediately before `cs`.  Implements the
lazy `[\s\S]*?` capture bounded by `^\.$`. -/
def dotLineIdx : Char → List Char → Option Nat
  | prev, c :: rest =>
    if c = '.' && (prev = '\r' || prev = '\n') &&
        (match rest with | [] => true | r :: _ => r = '\r' || r = '\n') then
      some 0
    else (dotLineIdx c rest).map (· + 1)
  | _, [] => none

/-- Leftmost match of `/250\-.+?=(.*?)$/m`: the captured value. -/
def dashValueSearch : List Char → Option (List Char)
  | [] => none
  | cs@(_ :: rest) =>
    if ("250-".data).isPrefixOf cs then
      match eqOnLine (cs.drop 4) with
      | some afterEq => some (lineOf afterEq)
      | none => dashValueSearch rest
    else dashValueSearch rest

/-- Leftmost match of `/250\+.+?=([\s\S]*?)^\.$/m`: the captured value. -/
def plusValueSearch : List Char → Option (List Char)
  | [] => none
  | cs@(_ :: rest) =>
    if ("250+".data).isPrefixOf cs then
      match eqOnLine (cs.drop 4) with
      | some afterEq =>
        match dotLineIdx '=' afterEq with
        | some p => some (afterEq.take p)
        | none => plusValueSearch rest
      | none => plusValueSearch rest
    else plusValueSearch rest

/-- The key capture of `/^250[\+-](.+?)=/m`: scan the lines for the first
one starting `250+` or `250-` whose remainder has `=` after at least one
character; the key is that line's characters strictly between the 4-char
status prefix and its first `=`.  Returns `none` where the JS code would
throw (`match(...)[1]` on a `null` match). -/
def kvKey (lines : List (List Char)) : Option (List Char) :=
  match lines with
  | [] => none
  | l :: rest =>
    if (("250+".data).isPrefixOf l || ("250-".data).isPrefixOf l) then
      match eqOnLine (l.drop 4) with
      | some _ => some ((l.drop 4).takeWhile (fun c => !(c = '=')))
      | none => kvKey rest
    else kvKey rest

/-- tor.stringToKV: `[key, value]` where value is `none` for a `null`
regex match; the whole result is `none` where the JS code would throw. -/
def stringToKV (kvString : List Char) : Option (List Char × Option (List Char)) :=
  match kvKey (splitCRLF kvString) with
  | none => none
  | some key =>
    some (key,
      match dashValueSearch kvString with
      | some v => some v
      | none => plusValueSearch kvString)

/-- End-to-end GETINFO reply parsing as performed on each message delivered
to the callback in `tor.getInfoMultiple`: extract the KV strings, then
convert each to a key-value pair. -/
def kvPairsOfMessage (msg : List Char) : List (Option (List Char × Option (List Char))) :=
  (infoKVStringsFromMessage msg).map stringToKV

/-! ### Capability table: tor.valueStringParsers / tor.getValueStringParser

The table maps a GETINFO key (or key prefix ending in `/`) to a parser
function or to one of the sentinels.  Parser functions are represented by
tags naming them; the sentinels `notSupported`, `deprecated` and `unknown`
are the error-raising entries. -/

inductive PTag where
  | identity
  | asInt
  | boolCheck
  | notSupported
  | deprecated
  | unknown
deriving DecidableEq, Repr

open PTag in
def valueStringParsers : List (String × PTag) :=
  [("version", identity),
   ("config-file", identity),
   ("config-defaults-file", identity),
   ("config-text", identity),
   ("exit-policy/", notSupported),
   ("desc/id/", notSupported),
   ("desc/name/", notSupported),
   ("md/id/", notSupported),
   ("md/name/", notSupported),
   ("dormant", notSupported),
   ("desc-annotations/id/", notSupported),
   ("extra-info/digest/", notSupported),
   ("ns/id/", notSupported),
   ("ns/name/", notSupported),
   ("ns/all/", notSupported),
   ("ns/purpose/", notSupported),
   ("desc/all-recent", notSupported),
   ("network-status", notSupported),
   ("address-mappings/", notSupported),
   ("addr-mappings/", deprecated),
   ("address", identity),
   ("fingerprint", identity),
   ("circuit-status", notSupported),
   ("stream-status", notSupported),
   ("orconn-status", notSupported),
   ("entry-guards", notSupported),
   ("traffic/read", asInt),
   ("traffic/written", asInt),
   ("accounting/enabled", boolCheck),
   ("accounting/hibernating", identity),
   ("accounting/bytes", notSupported),
   ("accounting/bytes-left", notSupported),
   ("accounting/interval-start", notSupported),
   ("accounting/interval-wake", notSupported),
   ("accounting/interval-end", notSupported),
   ("config/names", notSupported),
   ("config/defaults", notSupported),
   ("info/names", notSupported),
   ("events/names", notSupported),
   ("features/names", notSupported),
   ("signal/names", notSupported),
   ("ip-to-country/", identity),
   ("next-circuit/", identity),
   ("process/", identity),
   ("process/descriptor-limit", asInt),
   ("dir/status-vote/current/consensus", notSupported),
   ("dir/status/", notSupported),
   ("dir/server/", notSupported),
   ("status/", notSupported),
   ("net/listeners/", notSupported),
   ("dir-usage", notSupported)]

def lookupTag (key : String) : Option PTag :=
  (valueStringParsers.find? (fun p => p.1 = key)).map (·.2)

/-- Computes `key.substring(0, key.lastIndexOf("/") + 1)`: the characters of the key
up to and including its last slash (empty when the key has no slash). -/
def throughLastSlash (key : String) : String :=
  ⟨(key.data.reverse.dropWhile (fun c => !(c = '/'))).reverse⟩

/-- tor.getValueStringParser: exact lookup, else lookup of the key's prefix
through its last `/`, else `unknown`.  (All stored values are truthy in the
source, so JS `||` chains the lookups exactly like this.) -/
def getValueStringParser (key : String) : PTag :=
  match lookupTag key with
  | some t => t
  | none =>
    match lookupTag (throughLastSlash key) with
    | some t => t
    | none => PTag.unknown

/-- tor.getInfoMultiple (src/unnamed/part_001, first draft): validates all
keys against the capability table, throwing before anything is sent;
otherwise the `getinfo` command line is handed to sendCommand.  `Except.ok`
carries the command text written; `Except.error` carries the thrown
message. -/
def getInfoMultiple (keys : List String) : Except String String :=
  let parsers := keys.map getValueStringParser
  if parsers.contains PTag.notSupported then .error "Unsupported key."
  else if parsers.contains PTag.deprecated then .error "Deprecated key."
  else if parsers.contains PTag.unknown then .error "Unknown key."
  else .ok ("getinfo " ++ String.intercalate " " keys)

/-- info.getInfoMultiple (src/controlPort.jsm, lines 344-349): no
validation of any kind; the `getinfo` command is always sent. -/
def getInfoMultipleJsm (keys : List String) : Except String String :=
  .ok ("getinfo " ++ String.intercalate " " keys)

/-! ### Command pipeline

Events submitted to the pipeline: a `sendCommand(command, replyCallback)`
call (the callback is `none` when the caller passed no callback, as the
`authenticate`/`setevents` calls do; otherwise a numeric identity for the
callback function), or the arrival of a reply message routed to `onReply`.
The run records socket writes (via `asyncSend`) and reply deliveries
(callback identity, reply text) in order.  `crashed` is set when the source
would throw (destructuring `commandQueue.shift()` of an empty queue). -/

inductive Ev where
  | send (command : List Char) (sink : Option Nat)
  | reply (msg : List Char)
deriving DecidableEq, Repr

structure RunSt where
  queue : List (List Char × Option Nat)
  writes : List (List Char)
  delivs : List (Nat × List Char)
  crashed : Bool
deriving DecidableEq, Repr

def initRunSt : RunSt := ⟨[], [], [], false⟩

/-- io.interleaveCommandsAndReplies (src/unnamed/part_001 and the other
drafts): sendCommand pushes and sends only when the queue was empty;
onReply shifts the head, invokes its callback if any, and sends the next
queued command if any. -/
def interleaveStep (st : RunSt) (e : Ev) : RunSt :=
  if st.crashed then st else
  match e with
  | .send c s =>
    { st with queue := st.queue ++ [(c, s)],
              writes := st.writes ++ (if st.queue.isEmpty then [c] else []) }
  | .reply r =>
    match st.queue with
    | [] => { st with crashed := true }
    | (_, s) :: q =>
      { st with
          queue := q,
          delivs := st.delivs ++ (match s with | some id => [(id, r)] | none => []),
          writes := st.writes ++ (match q with | [] => [] | (c2, _) :: _ => [c2]) }

def interleaveRun (es : List Ev) : RunSt := es.foldl interleaveStep initRunSt

/-- Events for io.matchRepliesToCommands (src/controlPort.jsm): the jsm
dispatcher routes `2xx` messages to `onReply` and `4xx`/`5xx` messages to
`onFailure`. -/
inductive EvM where
  | send (command : List Char) (sink : Option Nat)
  | reply (msg : List Char)
  | failure
deriving DecidableEq, Repr

/-- io.matchRepliesToCommands (src/controlPort.jsm, lines 159-173):
sendCommand pushes and always sends immediately; onReply shifts the head
and invokes its callback; onFailure shifts the head silently (JS
`shift()` of an empty array is a harmless no-op there). -/
def matchStep (st : RunSt) (e : EvM) : RunSt :=
  if st.crashed then st else
  match e with
  | .send c s =>
    { st with queue := st.queue ++ [(c, s)], writes := st.writes ++ [c] }
  | .reply r =>
    match st.queue with
    | [] => { st with crashed := true }
    | (_, s) :: q =>
      { st with
          queue := q,
          delivs := st.delivs ++ (match s with | some id => [(id, r)] | none => []) }
  | .failure =>
    { st with queue := st.queue.tail }

def matchRun (es : List EvM) : RunSt := es.foldl matchStep initRunSt

/-- Commands of an event sequence, in submission order. -/
def cmdsOf (es : List Ev) : List (List Char) :=
  es.filterMap (fun e => match e with | .send c _ => some c | _ => none)

/-- Reply callbacks of an event sequence, in submission order. -/
def sinksOf (es : List Ev) : List (Option Nat) :=
  es.filterMap (fun e => match e with | .send _ s => some s | _ => none)

/-- Reply messages of an event sequence, in arrival order. -/
def repliesOf (es : List Ev) : List (List Char) :=
  es.filterMap (fun e => match e with | .reply r => some r | _ => none)

/-- Well-formedness: no reply arrives when the queue is empty (`p` counts
commands submitted but not yet replied to). -/
def wfFrom (p : Nat) : List Ev → Bool
  | [] => true
  | .send _ _ :: es => wfFrom (p + 1) es
  | .reply _ :: es => decide (0 < p) && wfFrom (p - 1) es

def wfEv (es : List Ev) : Bool := wfFrom 0 es

/-! ### Message routing in the control sockets

tor.controlSocket (src/unnamed/part_001, lines 206-230) registers
`/^[245]\d\d/ → onReply` and `/^650/ → onNotification` on the main
dispatcher.  io.controlSocket (src/controlPort.jsm, lines 211-240)
registers `/^2\d\d/ → onReply`, `/^[45]\d\d/ → onFailure + onError`, and
`/^650/ → onNotification`.  The three prefixes are mutually exclusive, so
the dispatcher's in-order scan is an if-chain. -/

def code2 (m : List Char) : Bool :=
  match m with
  | a :: b :: c :: _ => a = '2' && b.isDigit && c.isDigit
  | _ => false

def code45 (m : List Char) : Bool :=
  match m with
  | a :: b :: c :: _ => (a = '4' || a = '5') && b.isDigit && c.isDigit
  | _ => false

def code245 (m : List Char) : Bool :=
  match m with
  | a :: b :: c :: _ => (a = '2' || a = '4' || a = '5') && b.isDigit && c.isDigit
  | _ => false

def code650 (m : List Char) : Bool :=
  match m with
  | a :: b :: c :: _ => a = '6' && b = '5' && c = '0'
  | _ => false

/-- Routing one assembled message in tor.controlSocket (part_001): any
`2xx`/`4xx`/`5xx` message is handed to the pipeline's `onReply`; `650`
messages go to the notification dispatcher.  Result: (new pipeline state,
notification messages). -/
def routeTor (st : RunSt) (m : List Char) : RunSt × List (List Char) :=
  if code245 m then (interleaveStep st (.reply m), [])
  else if code650 m then (st, [m])
  else (st, [])

/-- Routing one assembled message in io.controlSocket (controlPort.jsm):
`2xx` goes to `onReply`; `4xx`/`5xx` triggers `onFailure` and then the
process-level `onError` with the message; `650` goes to the notification
dispatcher.  Result: (new pipeline state, onError messages, notification
messages). -/
def routeJsm (st : RunSt) (m : List Char) : RunSt × List (List Char) × List (List Char) :=
  if code2 m then (matchStep st (.reply m), [], [])
  else if code45 m then (matchStep st .failure, [m], [])
  else if code650 m then (st, [], [m])
  else (st, [], [])

/-! ### Callback dispatcher: io.callbackDispatcher

`callbackPairs` is a list of (regex, callback) pairs.  Callbacks are
identified by numbers; a `none` argument stands for a null/undefined
callback value passed to addCallback (never stored, since `if (callback)`
guards the push).  Regexes are an arbitrary type `R` equipped with a match
predicate, supplied to `onString`. -/

def addCallback (pairs : List (Nat × Nat)) (regex : Nat) (callback : Option Nat) :
    List (Nat × Nat) :=
  match callback with
  | some cb => pairs ++ [(regex, cb)]
  | none => pairs

/-- removeCallback filters out every pair whose callback is
identical (`!==`) to the argument; the argument is the callback captured by
a deregistration handle, which may be the null callback (`none`). -/
def removeCallback (pairs : List (Nat × Nat)) (aCallback : Option Nat) :
    List (Nat × Nat) :=
  pairs.filter (fun p => !(some p.2 == aCallback))

/-- onString invokes, in registration order, every callback whose
regex matches the message; `matches r m` decides the match. -/
def onString (rMatch : Nat → List Char → Bool) (pairs : List (Nat × Nat))
    (message : List Char) : List Nat :=
  (pairs.filter (fun p => rMatch p.1 message)).map (·.2)

/-! ### Circuit/stream tracker: torCircuitDisplay.js

`circuitData` collects CIRC BUILT event data keyed by circuit id; each
record's `circuit` field is an array of `[fingerprint, name]` pairs.
`circuitIdToDomainMap` and `domainToNodeDataMap` are the other two maps.
JS object indexing/assignment is modelled by association lists. -/

def assocGet {α β : Type} [DecidableEq α] (m : List (α × β)) (k : α) : Option β :=
  (m.find? (fun p => p.1 = k)).map (·.2)

def assocSet {α β : Type} [DecidableEq α] (m : List (α × β)) (k : α) (v : β) :
    List (α × β) :=
  if m.any (fun p => p.1 = k) then
    m.map (fun p => if p.1 = k then (k, v) else p)
  else m ++ [(k, v)]

structure NodeData where
  name : List Char
  id : List Char
  ip : List Char
  country : List Char
deriving DecidableEq, Repr

structure Tracker where
  circuitData : List (List Char × List (List Char × List Char))
  circuitIdToDomainMap : List (List Char × List Char)
  domainToNodeDataMap : List (List Char × List NodeData)
deriving DecidableEq, Repr

/-- nodeDataForID (torCircuitDisplay.js, lines 19-33).  The two GETINFO
round trips are modelled by oracles: `getNS fp = (IP, nickname)` supplies
the parsed `ns/id/<fp>` values and `getCountry ip` the `ip-to-country/<ip>`
values, positionally as the display code consumes them.  Result: (the two
issued GETINFO request batches, the assembled node data). -/
def nodeDataForID (getNS : List Char → List Char × List Char)
    (getCountry : List Char → List Char) (ids : List (List Char)) :
    List (List (List Char)) × List NodeData :=
  let idRequests := ids.map (fun id => "ns/id/".data ++ id)
  let statusMaps := ids.map getNS
  let IPs := statusMaps.map (·.1)
  let countryRequests := IPs.map (fun ip => "ip-to-country/".data ++ ip)
  let countries := IPs.map getCountry
  let results := (ids.zip (statusMaps.zip countries)).map
    (fun p => { name := p.2.1.2, id := p.1, ip := p.2.1.1, country := p.2.2 : NodeData })
  ([idRequests, countryRequests], results)

structure HandlerOut where
  state : Tracker
  batches : List (List (List Char))
  err : Option String
deriving DecidableEq, Repr

/-- The STREAM SENTCONNECT handler installed by assignCircuitsForDomains
(torCircuitDisplay.js, lines 112-131), composed with nodeDataForCircuit
(lines 37-43).  `domain` is `Target.split(":")[0]`.  When the circuit id is
new, the id→domain binding is recorded first; then nodeDataForCircuit reads
`circuitData.circuit[i][0]` for i = 0,1,2, which throws a TypeError when
the circuits map has no record for the id (or the path has fewer than three
hops) — the binding written just before the throw persists.  On success the
node data is stored in `domainToNodeDataMap[domain]` (overwriting any
previous value) and the issued GETINFO batches are recorded. -/
def streamSentConnect (getNS : List Char → List Char × List Char)
    (getCountry : List Char → List Char) (st : Tracker)
    (CircuitID Target : List Char) : HandlerOut :=
  let domain := Target.takeWhile (fun c => !(c = ':'))
  if (assocGet st.circuitIdToDomainMap CircuitID).isNone then
    let st1 := { st with
      circuitIdToDomainMap := assocSet st.circuitIdToDomainMap CircuitID domain }
    match assocGet st.circuitData CircuitID with
    | none =>
      { state := st1, batches := [],
        err := some "TypeError: circuitData[CircuitID] is undefined" }
    | some circuit =>
      if circuit.length < 3 then
        { state := st1, batches := [],
          err := some "TypeError: circuit[i] is undefined" }
      else
        let ids := (circuit.take 3).map (·.1)
        let r := nodeDataForID getNS getCountry ids
        { state := { st1 with
            domainToNodeDataMap := assocSet st1.domainToNodeDataMap domain r.2 },
          batches := r.1, err := none }
  else { state := st, batches := [], err := none }

/-! ### Concrete data for the scenario theorems -/

/-- Oracle supplying parsed `ns/id` data: fingerprint fp resolves to IP
`fp.ip` and nickname `fp.nick`. -/
def demoNS : List Char → List Char × List Char :=
  fun fp => (fp ++ ".ip".data, fp ++ ".nick".data)

/-- Oracle supplying parsed `ip-to-country` data. -/
def demoCountry : List Char → List Char := fun _ => "us".data

/-- A tracker state in which CIRC BUILT was observed for circuits 4 and 9
with three hops each. -/
def demoTracker : Tracker :=
  ⟨[("4".data, [("fpA".data, []), ("fpB".data, []), ("fpC".data, [])]),
    ("9".data, [("fpD".data, []), ("fpE".data, []), ("fpF".data, [])])], [], []⟩

/-- The S2 submission burst: commands A, B, C back-to-back, then the two
replies for A and B. -/
def demoEvents : List Ev :=
  [.send "A".data (some 1), .send "B".data (some 2), .send "C".data (some 3),
   .reply "250 OK".data, .reply "250 OK".data]

/-! ## Part 2: lemmas and theorems -/

theorem consHead_ne_nil (c : Char) (S : List (List Char)) : consHead c S ≠ [] := by
  cases S <;> simp [consHead]

theorem splitCRLF_ne_nil (cs : List Char) : splitCRLF cs ≠ [] := by
  induction cs using splitCRLF.induct with
  | case1 => simp [splitCRLF]
  | case2 c => simp [splitCRLF]
  | case3 c d rest h ih => simp [splitCRLF, h, ih]
  | case4 c d rest h ih => simp [splitCRLF, h, consHead_ne_nil]

theorem splitCRLF_singleton (cs : List Char) (x : List Char)
    (h : splitCRLF cs = [x]) : x = cs := by
  induction cs using splitCRLF.induct generalizing x with
  | case1 => simp [splitCRLF] at h; simp [h]
  | case2 c => simp [splitCRLF] at h; simp [h]
  | case3 c d rest hc ih =>
    rw [splitCRLF, if_pos hc] at h
    exact absurd (List.cons_eq_cons.mp h).2 (splitCRLF_ne_nil rest)
  | case4 c d rest hc ih =>
    rw [splitCRLF, if_neg hc] at h
    rcases hS : splitCRLF (d :: rest) with _ | ⟨s0, S'⟩
    · exact absurd hS (splitCRLF_ne_nil _)
    · rw [hS, consHead] at h
      rcases List.cons_eq_cons.mp h with ⟨h1, h2⟩
      subst h2
      have := ih s0 hS
      simp [← h1, this]

/-- How `splitCRLF` acts on appended input: all pieces before the last piece
of the first part are unchanged, and splitting resumes from the first part's
last (unfinished) piece glued onto the second part.  This is the key fact
behind chunk-boundary invariance of the framer. -/
theorem splitCRLF_append (u v : List Char) :
    splitCRLF (u ++ v) =
      (splitCRLF u).dropLast ++ splitCRLF ((splitCRLF u).getLastD [] ++ v) := by
  induction u using splitCRLF.induct with
  | case1 => simp [splitCRLF]
  | case2 c =>
    simp [splitCRLF]
  | case3 c d rest hc ih =>
    rcases hc with ⟨hc1, hc2⟩
    subst hc1; subst hc2
    rcases hS : splitCRLF rest with _ | ⟨s0, S'⟩
    · exact absurd hS (splitCRLF_ne_nil _)
    · rw [List.cons_append, List.cons_append, splitCRLF, if_pos ⟨rfl, rfl⟩,
        splitCRLF, if_pos ⟨rfl, rfl⟩, ih, hS]
      simp [List.getLastD_cons]
  | case4 c d rest hc ih =>
    rcases hS : splitCRLF (d :: rest) with _ | ⟨s0, S'⟩
    · exact absurd hS (splitCRLF_ne_nil _)
    · have lhs_eq : splitCRLF ((c :: d :: rest) ++ v) =
          consHead c (splitCRLF ((d :: rest) ++ v)) := by
        rw [List.cons_append, List.cons_append, splitCRLF, if_neg hc]
      have u_eq : splitCRLF (c :: d :: rest) = consHead c (s0 :: S') := by
        rw [splitCRLF, if_neg hc, hS]
      rcases S' with _ | ⟨t, ts⟩
      · -- the first part has no CRLF at all: s0 is the whole of d :: rest
        have hs0 : s0 = d :: rest := splitCRLF_singleton _ _ hS
        subst hs0
        rw [lhs_eq, ih, hS, u_eq]
        show consHead c ([] ++ splitCRLF ((d :: rest) ++ v)) =
            [] ++ splitCRLF ((c :: d :: rest) ++ v)
        simp only [List.cons_append, List.nil_append]
        simp only [splitCRLF]
        rw [if_neg hc]
      · rw [lhs_eq, ih, hS, u_eq]
        simp only [consHead, List.getLastD_cons, List.cons_append]
        have hd : (s0 :: t :: ts).dropLast = s0 :: (t :: ts).dropLast := rfl
        have hd2 : ((c :: s0) :: t :: ts).dropLast = (c :: s0) :: (t :: ts).dropLast := rfl
        rw [hd, hd2]
        simp [consHead]

theorem getLastD_append_of_ne_nil {α : Type} (l1 l2 : List α) (d : α) (h : l2 ≠ []) :
    (l1 ++ l2).getLastD d = l2.getLastD d := by
  rw [List.getLastD_eq_getLast?, List.getLastD_eq_getLast?,
    List.getLast?_append_of_ne_nil _ h]

/-- Merging the first two chunks does not change the framer's behaviour. -/
theorem framerRun_merge (p c1 c2 : List Char) (cs : List (List Char)) :
    framerRun p (c1 :: c2 :: cs) = framerRun p ((c1 ++ c2) :: cs) := by
  have hne := splitCRLF_ne_nil ((splitCRLF (p ++ c1)).getLastD [] ++ c2)
  show
    (let pieces := splitCRLF (p ++ c1)
     let r :=
       (let pieces2 := splitCRLF (pieces.getLastD [] ++ c2)
        let r2 := framerRun (pieces2.getLastD []) cs
        (r2.1, pieces2.dropLast ++ r2.2))
     (r.1, pieces.dropLast ++ r.2)) =
    (let pieces := splitCRLF (p ++ (c1 ++ c2))
     let r := framerRun (pieces.getLastD []) cs
     (r.1, pieces.dropLast ++ r.2))
  simp only []
  rw [show p ++ (c1 ++ c2) = (p ++ c1) ++ c2 from (List.append_assoc p c1 c2).symm,
    splitCRLF_append (p ++ c1) c2,
    List.dropLast_append_of_ne_nil _ hne,
    getLastD_append_of_ne_nil _ _ _ hne, List.append_assoc]

/-- The framer behaves the same whether the input arrives as many chunks or
as their concatenation in a single chunk. -/
theorem framerRun_join (p c : List Char) (cs : List (List Char)) :
    framerRun p (c :: cs) = framerRun p [(c :: cs).foldr (· ++ ·) []] := by
  induction cs generalizing p c with
  | nil => simp
  | cons c2 cs ih =>
    rw [framerRun_merge, ih]
    simp [List.append_assoc]

theorem onLineRun_append (st : List (List Char)) (a b : List (List Char)) :
    onLineRun st (a ++ b) =
      ((onLineRun (onLineRun st a).1 b).1,
       (onLineRun st a).2 ++ (onLineRun (onLineRun st a).1 b).2) := by
  induction a generalizing st with
  | nil => simp [onLineRun]
  | cons l ls ih =>
    simp only [List.cons_append, onLineRun, List.append_eq]
    rw [ih]
    simp [List.append_assoc]

/-- The framer+assembler composition factors through the framer's emitted
line sequence. -/
theorem onDataRun_eq (st : PipeSt) (chunks : List (List Char)) :
    onDataRun st chunks =
      (⟨(framerRun st.pendingData chunks).1,
        (onLineRun st.pendingLines (framerRun st.pendingData chunks).2).1⟩,
       (onLineRun st.pendingLines (framerRun st.pendingData chunks).2).2) := by
  induction chunks generalizing st with
  | nil => simp [onDataRun, framerRun, onLineRun]
  | cons c cs ih =>
    simp only [onDataRun, onDataStep]
    rw [ih]
    simp [framerRun, onLineRun_append, List.append_assoc]

/-- C5: framing is invariant under chunk boundaries: for every partition of
a byte sequence into chunks, feeding the chunks through the line framer
composed with the message assembler emits exactly the messages of the
single-chunk run; in particular splitting `250 OK\r\n250 OK\r\n` into the
chunks `250 O`, `K\r\n250`, ` OK\r\n` emits exactly the two `250 OK`
messages of the unsplit case. -/
theorem framing_chunk_invariant :
    (∀ chunks : List (List Char),
      (onDataRun ⟨[], []⟩ chunks).2 =
        (onDataRun ⟨[], []⟩ [chunks.foldr (· ++ ·) []]).2) ∧
    (onDataRun ⟨[], []⟩ ["250 O".data, "K\r\n250".data, " OK\r\n".data]).2 =
      ["250 OK".data, "250 OK".data] ∧
    (onDataRun ⟨[], []⟩ ["250 OK\r\n250 OK\r\n".data]).2 =
      ["250 OK".data, "250 OK".data] := by
  refine ⟨?_, by decide, by decide⟩
  intro chunks
  rcases chunks with _ | ⟨c, cs⟩
  · rfl
  · rw [onDataRun_eq, onDataRun_eq]
    simp only [show (⟨[], []⟩ : PipeSt).pendingData = [] from rfl,
      show (⟨[], []⟩ : PipeSt).pendingLines = [] from rfl]
    rw [framerRun_join]

/-- C4 counterexample: on the byte stream
`250+config-text=\r\nControlPort 9151\r\nSocksPort 9150\r\n.\r\n250 OK\r\n`
the assembler+parser do NOT produce the claimed KVEntry whose value is
exactly `ControlPort 9151\r\nSocksPort 9150`: the captured value keeps the
CRLF after `=` and the CRLF before the terminating dot. -/
theorem getinfo_multiline_parse_counterexample :
    ¬ ((onDataRun ⟨[], []⟩
          ["250+config-text=\r\nControlPort 9151\r\nSocksPort 9150\r\n.\r\n250 OK\r\n".data]).2.map
        kvPairsOfMessage =
      [[some ("config-text".data, some "ControlPort 9151\r\nSocksPort 9150".data)]]) := by
  decide

/-- C4 amended: the byte stream yields exactly one KVEntry, whose key is
`config-text` and whose value is `\r\nControlPort 9151\r\nSocksPort 9150\r\n`
(the body with its leading and trailing CRLF, without the terminating dot);
the trailing `250 OK` line produces no KVEntry. -/
theorem getinfo_multiline_parse :
    (onDataRun ⟨[], []⟩
        ["250+config-text=\r\nControlPort 9151\r\nSocksPort 9150\r\n.\r\n250 OK\r\n".data]).2.map
      kvPairsOfMessage =
    [[some ("config-text".data,
            some "\r\nControlPort 9151\r\nSocksPort 9150\r\n".data)]] := by
  decide

/-! ### Command pipeline lemmas -/

@[simp] theorem cmdsOf_nil : cmdsOf [] = [] := rfl

@[simp] theorem cmdsOf_cons_send (c : List Char) (s : Option Nat) (es : List Ev) :
    cmdsOf (.send c s :: es) = c :: cmdsOf es := rfl

@[simp] theorem cmdsOf_cons_reply (m : List Char) (es : List Ev) :
    cmdsOf (.reply m :: es) = cmdsOf es := rfl

@[simp] theorem sinksOf_nil : sinksOf [] = [] := rfl

@[simp] theorem sinksOf_cons_send (c : List Char) (s : Option Nat) (es : List Ev) :
    sinksOf (.send c s :: es) = s :: sinksOf es := rfl

@[simp] theorem sinksOf_cons_reply (m : List Char) (es : List Ev) :
    sinksOf (.reply m :: es) = sinksOf es := rfl

@[simp] theorem repliesOf_nil : repliesOf [] = [] := rfl

@[simp] theorem repliesOf_cons_send (c : List Char) (s : Option Nat) (es : List Ev) :
    repliesOf (.send c s :: es) = repliesOf es := rfl

@[simp] theorem repliesOf_cons_reply (m : List Char) (es : List Ev) :
    repliesOf (.reply m :: es) = m :: repliesOf es := rfl

theorem cmdsOf_append (a b : List Ev) : cmdsOf (a ++ b) = cmdsOf a ++ cmdsOf b :=
  List.filterMap_append a b _

theorem sinksOf_append (a b : List Ev) : sinksOf (a ++ b) = sinksOf a ++ sinksOf b :=
  List.filterMap_append a b _

theorem repliesOf_append (a b : List Ev) : repliesOf (a ++ b) = repliesOf a ++ repliesOf b :=
  List.filterMap_append a b _

theorem sinksOf_length (es : List Ev) : (sinksOf es).length = (cmdsOf es).length := by
  induction es with
  | nil => rfl
  | cons e es ih => cases e <;> simp [ih]

theorem wfFrom_snoc_send (es : List Ev) (c : List Char) (s : Option Nat) :
    ∀ p, wfFrom p (es ++ [Ev.send c s]) = wfFrom p es := by
  induction es with
  | nil => intro p; simp [wfFrom]
  | cons e es ih =>
    intro p
    cases e with
    | send c2 s2 => simp [wfFrom, ih]
    | reply m => simp [wfFrom, ih]

theorem wf_count (es : List Ev) :
    ∀ p, wfFrom p es = true → (repliesOf es).length ≤ p + (cmdsOf es).length := by
  induction es with
  | nil => intro p _; simp
  | cons e es ih =>
    intro p h
    cases e with
    | send c s =>
      rw [wfFrom] at h
      have hle := ih (p + 1) h
      simp only [repliesOf_cons_send, cmdsOf_cons_send, List.length_cons]
      omega
    | reply m =>
      rw [wfFrom] at h
      simp only [Bool.and_eq_true, decide_eq_true_eq] at h
      obtain ⟨hp, hwf⟩ := h
      have hle := ih (p - 1) hwf
      simp only [repliesOf_cons_reply, cmdsOf_cons_reply, List.length_cons]
      omega

theorem wfFrom_snoc_reply (es : List Ev) (m : List Char) :
    ∀ p, wfFrom p (es ++ [Ev.reply m]) = true →
      wfFrom p es = true ∧ (repliesOf es).length < p + (cmdsOf es).length := by
  induction es with
  | nil =>
    intro p h
    simp [wfFrom] at h
    simp [wfFrom]
    omega
  | cons e es ih =>
    intro p h
    cases e with
    | send c s =>
      rw [List.cons_append, wfFrom] at h
      obtain ⟨hwf2, hlt⟩ := ih (p + 1) h
      rw [wfFrom]
      refine ⟨hwf2, ?_⟩
      simp only [repliesOf_cons_send, cmdsOf_cons_send, List.length_cons]
      omega
    | reply m2 =>
      rw [List.cons_append, wfFrom] at h
      simp only [Bool.and_eq_true, decide_eq_true_eq] at h
      obtain ⟨hp, hwf⟩ := h
      obtain ⟨hwf2, hlt⟩ := ih (p - 1) hwf
      rw [wfFrom]
      constructor
      · simp [hp, hwf2]
      · simp only [repliesOf_cons_reply, cmdsOf_cons_reply, List.length_cons]
        omega

theorem zip_append_left_of_le {α β : Type} (a a' : List α) (b : List β)
    (h : b.length ≤ a.length) : (a ++ a').zip b = a.zip b := by
  induction a generalizing b with
  | nil =>
    rcases b with _ | ⟨y, b⟩
    · simp
    · simp at h
  | cons x a ih =>
    rcases b with _ | ⟨y, b⟩
    · simp
    · simp only [List.cons_append, List.zip_cons_cons]
      rw [ih]
      simpa using h

theorem zip_concat_right {α β : Type} (a : List α) (b : List β) (x : α) (y : β)
    (h : a[b.length]? = some x) : a.zip (b ++ [y]) = a.zip b ++ [(x, y)] := by
  induction a generalizing b with
  | nil => simp at h
  | cons z a ih =>
    rcases b with _ | ⟨w, b⟩
    · simp only [List.length_nil, List.getElem?_cons_zero, Option.some.injEq] at h
      simp [h]
    · simp only [List.cons_append, List.zip_cons_cons]
      simp only [List.length_cons, List.getElem?_cons_succ] at h
      rw [ih b h]

/-- Reduction of one interleave step on a send event. -/
theorem interleaveStep_send (q : List (List Char × Option Nat)) (w : List (List Char))
    (d : List (Nat × List Char)) (c : List Char) (s : Option Nat) :
    interleaveStep ⟨q, w, d, false⟩ (.send c s) =
      ⟨q ++ [(c, s)], w ++ (if q.isEmpty then [c] else []), d, false⟩ := rfl

/-- Reduction of one interleave step on a reply with exactly one queued
command: nothing further is written. -/
theorem interleaveStep_reply_last (c : List Char) (s : Option Nat)
    (w : List (List Char)) (d : List (Nat × List Char)) (m : List Char) :
    interleaveStep ⟨[(c, s)], w, d, false⟩ (.reply m) =
      ⟨[], w, d ++ (match s with | some id => [(id, m)] | none => []), false⟩ := by
  simp [interleaveStep]

/-- Reduction of one interleave step on a reply with a further queued
command: that command is written. -/
theorem interleaveStep_reply_cons2 (c : List Char) (s : Option Nat)
    (c2 : List Char) (s2 : Option Nat) (q : List (List Char × Option Nat))
    (w : List (List Char)) (d : List (Nat × List Char)) (m : List Char) :
    interleaveStep ⟨(c, s) :: (c2, s2) :: q, w, d, false⟩ (.reply m) =
      ⟨(c2, s2) :: q, w ++ [c2],
        d ++ (match s with | some id => [(id, m)] | none => []), false⟩ := rfl

/-- Run invariant of io.interleaveCommandsAndReplies: on a well-formed
event sequence with `n` submissions and `r` replies so far, the queue holds
the commands not yet replied to, exactly the first `min (r+1) n` commands
have been written to the socket, and the i-th reply was delivered to the
i-th submitted callback. -/
theorem interleaveRun_spec (es : List Ev) (h : wfEv es = true) :
    interleaveRun es =
      { queue := ((cmdsOf es).zip (sinksOf es)).drop (repliesOf es).length,
        writes := (cmdsOf es).take (min ((repliesOf es).length + 1) (cmdsOf es).length),
        delivs := ((sinksOf es).zip (repliesOf es)).filterMap
          (fun p => p.1.map (fun id => (id, p.2))),
        crashed := false } := by
  induction es using List.reverseRecOn with
  | nil => rfl
  | append_singleton es e ih =>
    have hstep : interleaveRun (es ++ [e]) = interleaveStep (interleaveRun es) e := by
      simp [interleaveRun, List.foldl_append]
    have hlen : (sinksOf es).length = (cmdsOf es).length := sinksOf_length es
    have hzlen : (((cmdsOf es).zip (sinksOf es))).length = (cmdsOf es).length := by
      rw [List.length_zip, hlen, Nat.min_self]
    cases e with
    | send c s =>
      have hes : wfEv es = true := by
        rw [wfEv] at h ⊢
        rw [wfFrom_snoc_send es c s 0] at h
        exact h
      have hr_le : (repliesOf es).length ≤ (cmdsOf es).length := by
        have := wf_count es 0 hes
        omega
      rw [hstep, ih hes, interleaveStep_send]
      simp only [cmdsOf_append, sinksOf_append, repliesOf_append,
        cmdsOf_cons_send, cmdsOf_nil, sinksOf_cons_send, sinksOf_nil,
        repliesOf_cons_send, repliesOf_nil, List.append_nil]
      congr 1
      · -- queue
        rw [List.zip_append hlen.symm]
        simp only [List.zip_cons_cons, List.zip_nil_right]
        rw [List.drop_append_of_le_length (by omega :
          (repliesOf es).length ≤ (((cmdsOf es).zip (sinksOf es))).length)]
      · -- writes
        rcases Nat.lt_or_ge (repliesOf es).length (cmdsOf es).length with hlt | hge
        · have hlt2 : (repliesOf es).length < (((cmdsOf es).zip (sinksOf es))).length := by
            omega
          have hq : (((cmdsOf es).zip (sinksOf es)).drop (repliesOf es).length).isEmpty
              = false := by
            rw [List.isEmpty_eq_false_iff_exists_mem]
            rw [List.drop_eq_getElem_cons hlt2]
            exact ⟨_, List.mem_cons_self _ _⟩
          rw [if_neg (by simp [hq]), List.append_nil]
          have e1 : min ((repliesOf es).length + 1) (cmdsOf es).length
              = (repliesOf es).length + 1 := Nat.min_eq_left (by omega)
          have e2 : min ((repliesOf es).length + 1) (cmdsOf es ++ [c]).length
              = (repliesOf es).length + 1 := by
            rw [List.length_append, List.length_cons, List.length_nil]
            exact Nat.min_eq_left (by omega)
          rw [e1, e2, List.take_append_of_le_length (by omega)]
        · have hr_eq : (repliesOf es).length = (cmdsOf es).length := by omega
          have hq : (((cmdsOf es).zip (sinksOf es)).drop (repliesOf es).length).isEmpty
              = true := by
            rw [List.isEmpty_iff]
            exact List.drop_eq_nil_of_le (by omega)
          rw [if_pos hq]
          have e1 : min ((repliesOf es).length + 1) (cmdsOf es).length
              = (cmdsOf es).length := Nat.min_eq_right (by omega)
          have e2 : min ((repliesOf es).length + 1) (cmdsOf es ++ [c]).length
              = (cmdsOf es ++ [c]).length := by
            rw [List.length_append, List.length_cons, List.length_nil]
            exact Nat.min_eq_right (by omega)
          rw [e1, e2, List.take_length, List.take_length]
      · -- delivs
        rw [zip_append_left_of_le _ _ _ (by omega :
          (repliesOf es).length ≤ (sinksOf es).length)]
    | reply m =>
      rw [wfEv] at h
      obtain ⟨hes0, hlt0⟩ := wfFrom_snoc_reply es m 0 h
      have hes : wfEv es = true := hes0
      have hlt : (repliesOf es).length < (cmdsOf es).length := by omega
      have hrz : (repliesOf es).length < (((cmdsOf es).zip (sinksOf es))).length := by omega
      have hrs : (repliesOf es).length < (sinksOf es).length := by omega
      have hget : (((cmdsOf es).zip (sinksOf es)))[(repliesOf es).length] =
          ((cmdsOf es)[(repliesOf es).length], (sinksOf es)[(repliesOf es).length]) :=
        List.getElem_zip
      have hgs : (sinksOf es)[(repliesOf es).length]? =
          some ((sinksOf es)[(repliesOf es).length]) := List.getElem?_eq_getElem hrs
      have hdeliv :
          ((sinksOf es).zip (repliesOf es ++ [m])).filterMap
              (fun p => p.1.map (fun id => (id, p.2))) =
            ((sinksOf es).zip (repliesOf es)).filterMap
              (fun p => p.1.map (fun id => (id, p.2))) ++
            (match (sinksOf es)[(repliesOf es).length] with
              | some id => [(id, m)] | none => []) := by
        rw [zip_concat_right _ _ _ m hgs, List.filterMap_append]
        cases hx : (sinksOf es)[(repliesOf es).length] with
        | none => simp
        | some id0 => simp
      rw [hstep, ih hes]
      rcases Nat.lt_or_ge ((repliesOf es).length + 1) (cmdsOf es).length with h2 | h2
      · -- a further command is queued and goes out now
        have hz2 : (repliesOf es).length + 1 < (((cmdsOf es).zip (sinksOf es))).length := by
          omega
        have hget2 : (((cmdsOf es).zip (sinksOf es)))[(repliesOf es).length + 1] =
            ((cmdsOf es)[(repliesOf es).length + 1],
              (sinksOf es)[(repliesOf es).length + 1]) :=
          List.getElem_zip
        rw [List.drop_eq_getElem_cons hrz, List.drop_eq_getElem_cons hz2, hget, hget2,
          interleaveStep_reply_cons2]
        simp only [cmdsOf_append, sinksOf_append, repliesOf_append,
          cmdsOf_cons_reply, cmdsOf_nil, sinksOf_cons_reply, sinksOf_nil,
          repliesOf_cons_reply, repliesOf_nil, List.append_nil]
        congr 1
        · -- queue
          rw [List.length_append, List.length_cons, List.length_nil,
            List.drop_eq_getElem_cons hz2, hget2]
        · -- writes
          have e1 : min ((repliesOf es).length + 1) (cmdsOf es).length
              = (repliesOf es).length + 1 := Nat.min_eq_left (by omega)
          have e2 : min ((repliesOf es ++ [m]).length + 1) (cmdsOf es).length
              = (repliesOf es).length + 1 + 1 := by
            rw [List.length_append, List.length_cons, List.length_nil]
            exact Nat.min_eq_left (by omega)
          rw [e1, e2]
          conv_rhs => rw [List.take_succ]
          rw [List.getElem?_eq_getElem
            (by omega : (repliesOf es).length + 1 < (cmdsOf es).length)]
          rfl
        · -- delivs
          rw [hdeliv]
      · -- that was the only queued command
        have hq1 : ((cmdsOf es).zip (sinksOf es)).drop ((repliesOf es).length + 1) = [] :=
          List.drop_eq_nil_of_le (by omega)
        rw [List.drop_eq_getElem_cons hrz, hq1, hget, interleaveStep_reply_last]
        simp only [cmdsOf_append, sinksOf_append, repliesOf_append,
          cmdsOf_cons_reply, cmdsOf_nil, sinksOf_cons_reply, sinksOf_nil,
          repliesOf_cons_reply, repliesOf_nil, List.append_nil]
        congr 1
        · -- queue
          rw [List.length_append, List.length_cons, List.length_nil, ← hq1]
        · -- writes
          have e1 : min ((repliesOf es).length + 1) (cmdsOf es).length
              = (cmdsOf es).length := Nat.min_eq_right (by omega)
          have e2 : min ((repliesOf es ++ [m]).length + 1) (cmdsOf es).length
              = (cmdsOf es).length := by
            rw [List.length_append, List.length_cons, List.length_nil]
            exact Nat.min_eq_right (by omega)
          rw [e1, e2]
        · -- delivs
          rw [hdeliv]

theorem map_fst_zip_eq_take {α β : Type} (a : List α) (b : List β) :
    (a.zip b).map Prod.fst = a.take b.length := by
  induction a generalizing b with
  | nil => simp
  | cons x a ih =>
    rcases b with _ | ⟨y, b⟩
    · simp
    · simp [ih]

/-- C1 counterexample: io.matchRepliesToCommands (src/controlPort.jsm)
writes every submitted command to the socket at submission time: after
submitting A, B, C back-to-back with no replies, all three commands have
been written, not only A. -/
theorem one_in_flight_counterexample :
    (matchRun [.send "A".data (some 1), .send "B".data (some 2),
               .send "C".data (some 3)]).writes
      = ["A".data, "B".data, "C".data] ∧
    ¬ ((matchRun [.send "A".data (some 1), .send "B".data (some 2),
                  .send "C".data (some 3)]).writes = ["A".data]) := by
  constructor
  · rfl
  · decide

/-- C1 amended: the strict one-in-flight discipline holds for
io.interleaveCommandsAndReplies (src/unnamed/part_001 and the other
drafts): on any well-formed run, the commands written to the socket are
exactly the first `min (replies+1) sends` submitted commands — a newly
submitted command is written immediately iff the queue was empty, and the
(i+1)-th command is written exactly when the i-th reply arrives — so at
most one command is ever in flight.  io.matchRepliesToCommands in
src/controlPort.jsm instead writes every command immediately on
submission (see the counterexample). -/
theorem one_in_flight (es : List Ev) (h : wfEv es = true) :
    (interleaveRun es).writes =
      (cmdsOf es).take (min ((repliesOf es).length + 1) (cmdsOf es).length) ∧
    (interleaveRun es).writes.length ≤ (repliesOf es).length + 1 := by
  rw [interleaveRun_spec es h]
  refine ⟨rfl, ?_⟩
  rw [List.length_take]
  omega

/-- C1 witness: on the concrete burst A, B, C only A is written; after A's
reply exactly B has additionally been written. -/
theorem one_in_flight_witness :
    wfEv demoEvents = true ∧
    ((interleaveRun demoEvents).writes =
        (cmdsOf demoEvents).take
          (min ((repliesOf demoEvents).length + 1) (cmdsOf demoEvents).length) ∧
      (interleaveRun demoEvents).writes.length ≤ (repliesOf demoEvents).length + 1) :=
  ⟨by decide, one_in_flight demoEvents (by decide)⟩

/-- C2: replies are bound to commands in submission order in
io.interleaveCommandsAndReplies: on any well-formed run the delivered
(callback, reply) pairs are exactly the i-th submitted callback paired with
the i-th arriving reply (callbacks omitted where the caller passed none),
and when the submitted callbacks are pairwise distinct each callback is
invoked at most once. -/
theorem replies_in_submission_order (es : List Ev) (h : wfEv es = true) :
    (interleaveRun es).delivs =
      ((sinksOf es).zip (repliesOf es)).filterMap
        (fun p => p.1.map (fun id => (id, p.2))) ∧
    (((sinksOf es).filterMap id).Nodup →
      ((interleaveRun es).delivs.map Prod.fst).Nodup) := by
  rw [interleaveRun_spec es h]
  refine ⟨rfl, ?_⟩
  intro hnd
  have h1 : ((((sinksOf es).zip (repliesOf es)).filterMap
      (fun p => p.1.map (fun id => (id, p.2)))).map Prod.fst)
      = ((sinksOf es).zip (repliesOf es)).filterMap (fun p => p.1) := by
    rw [List.map_filterMap]
    simp [Option.map_map, Function.comp_def]
  have h2 : (((sinksOf es).zip (repliesOf es)).filterMap (fun p => p.1))
      = ((((sinksOf es).zip (repliesOf es)).map Prod.fst).filterMap id) := by
    rw [List.filterMap_map]
    rfl
  rw [h1, h2, map_fst_zip_eq_take]
  exact hnd.sublist (((sinksOf es).take_sublist _).filterMap id)

/-- C2 witness: two commands with callbacks 1 and 2 and two replies: the
first reply goes to callback 1, the second to callback 2, each once. -/
theorem replies_in_submission_order_witness :
    wfEv demoEvents = true ∧
    ((interleaveRun demoEvents).delivs =
        ((sinksOf demoEvents).zip (repliesOf demoEvents)).filterMap
          (fun p => p.1.map (fun id => (id, p.2))) ∧
      (((sinksOf demoEvents).filterMap id).Nodup →
        ((interleaveRun demoEvents).delivs.map Prod.fst).Nodup)) :=
  ⟨by decide, replies_in_submission_order demoEvents (by decide)⟩

/-- C3 counterexample: info.getInfoMultiple in src/controlPort.jsm performs
no key validation whatsoever: `get_info("entry-guards")` does not fail
locally there — the `getinfo entry-guards` line is written to the socket. -/
theorem getinfo_validation_counterexample :
    getInfoMultipleJsm ["entry-guards"] = .ok "getinfo entry-guards" := rfl

/-- C3 amended: tor.getInfoMultiple (src/unnamed/part_001) validates every
requested key against the capability table before issuing the request: if
any key resolves (exactly or by prefix) to not-supported, deprecated or
unknown, the call throws locally and nothing is written; in particular
`get_info("entry-guards")` fails with "Unsupported key.".  The
info.getInfoMultiple variant in src/controlPort.jsm, however, performs no
validation and always sends (see the counterexample). -/
theorem getinfo_validation (keys : List String)
    (h : (keys.map getValueStringParser).contains PTag.notSupported = true ∨
         (keys.map getValueStringParser).contains PTag.deprecated = true ∨
         (keys.map getValueStringParser).contains PTag.unknown = true) :
    (∃ e, getInfoMultiple keys = .error e) ∧
    getInfoMultiple ["entry-guards"] = .error "Unsupported key." := by
  constructor
  · simp only [getInfoMultiple]
    split_ifs with h1 h2 h3
    · exact ⟨_, rfl⟩
    · exact ⟨_, rfl⟩
    · exact ⟨_, rfl⟩
    · rcases h with h | h | h <;> simp_all <;>
        (obtain ⟨a, ha, hpa⟩ := h
         first
         | exact h1 a ha hpa
         | exact h2 a ha hpa
         | exact h3 a ha hpa)
  · rfl

/-- C3 witness: the key list `["entry-guards"]` resolves to not-supported
and the call errors. -/
theorem getinfo_validation_witness :
    ((["entry-guards"].map getValueStringParser).contains PTag.notSupported = true ∨
      (["entry-guards"].map getValueStringParser).contains PTag.deprecated = true ∨
      (["entry-guards"].map getValueStringParser).contains PTag.unknown = true) ∧
    ((∃ e, getInfoMultiple ["entry-guards"] = .error e) ∧
      getInfoMultiple ["entry-guards"] = .error "Unsupported key.") :=
  ⟨Or.inl (by decide), getinfo_validation ["entry-guards"] (Or.inl (by decide))⟩

theorem code45_code245 (m : List Char) (h : code45 m = true) : code245 m = true := by
  rcases m with _ | ⟨a, rest1⟩
  · simp [code45] at h
  rcases rest1 with _ | ⟨b, rest2⟩
  · simp [code45] at h
  rcases rest2 with _ | ⟨c, rest⟩
  · simp [code45] at h
  simp only [code45, Bool.and_eq_true, Bool.or_eq_true, decide_eq_true_eq] at h
  obtain ⟨⟨h1, h2⟩, h3⟩ := h
  rcases h1 with h1 | h1 <;> subst h1 <;> simp [code245, h2, h3]

theorem code45_code2 (m : List Char) (h : code45 m = true) : code2 m = false := by
  rcases m with _ | ⟨a, rest1⟩
  · rfl
  rcases rest1 with _ | ⟨b, rest2⟩
  · rfl
  rcases rest2 with _ | ⟨c, rest⟩
  · rfl
  simp only [code45, Bool.and_eq_true, Bool.or_eq_true, decide_eq_true_eq] at h
  obtain ⟨⟨h1, h2⟩, h3⟩ := h
  rcases h1 with h1 | h1 <;> subst h1 <;> simp [code2]

/-- C6 counterexample: in io.controlSocket (src/controlPort.jsm) a `5xx`
reply arriving while a command with reply sink 7 heads the queue is NOT
delivered to that sink: the sink receives nothing (the head slot is
consumed silently by onFailure) and the message goes to the global onError
handler instead. -/
theorem error_reply_sink_counterexample :
    (routeJsm ⟨[("getinfo version".data, some 7)], [], [], false⟩ "500 oops".data).1.delivs
      = [] ∧
    (routeJsm ⟨[("getinfo version".data, some 7)], [], [], false⟩ "500 oops".data).2.1
      = ["500 oops".data] ∧
    (routeJsm ⟨[("getinfo version".data, some 7)], [], [], false⟩ "500 oops".data).1.queue
      = [] := by
  decide

/-- C6 amended: a `4xx`/`5xx` reply always consumes the head-of-queue slot,
but the two drafts deliver it differently: tor.controlSocket
(src/unnamed/part_001) invokes the head command's reply sink with the raw
error message (no error marking) and delivers it nowhere else; in
io.controlSocket (src/controlPort.jsm) the head sink is not invoked at all
— the head slot is dropped and the message is passed (wrapped as an Error)
to the process-level onError handler. -/
theorem error_reply_handling (c : List Char) (s : Nat)
    (q : List (List Char × Option Nat)) (w : List (List Char))
    (d : List (Nat × List Char)) (m : List Char) (hm : code45 m = true) :
    (routeTor ⟨(c, some s) :: q, w, d, false⟩ m).1.delivs = d ++ [(s, m)] ∧
    (routeTor ⟨(c, some s) :: q, w, d, false⟩ m).1.queue = q ∧
    (routeTor ⟨(c, some s) :: q, w, d, false⟩ m).2 = [] ∧
    (routeJsm ⟨(c, some s) :: q, w, d, false⟩ m).1.delivs = d ∧
    (routeJsm ⟨(c, some s) :: q, w, d, false⟩ m).1.queue = q ∧
    (routeJsm ⟨(c, some s) :: q, w, d, false⟩ m).2.1 = [m] := by
  have h245 : code245 m = true := code45_code245 m hm
  have h2 : code2 m = false := code45_code2 m hm
  unfold routeTor routeJsm
  rw [if_pos h245, if_neg (by simp [h2]), if_pos hm]
  exact ⟨rfl, rfl, rfl, rfl, rfl, rfl⟩

/-- C6 witness: concrete error reply `500 oops` with sink 7 at the head in
the part_001 socket is delivered to sink 7 and consumes the slot. -/
theorem error_reply_handling_witness :
    code45 "500 oops".data = true ∧
    ((routeTor ⟨[("getinfo version".data, some 7)], [], [], false⟩ "500 oops".data).1.delivs
        = [] ++ [(7, "500 oops".data)] ∧
      (routeTor ⟨[("getinfo version".data, some 7)], [], [], false⟩ "500 oops".data).1.queue
        = [] ∧
      (routeTor ⟨[("getinfo version".data, some 7)], [], [], false⟩ "500 oops".data).2 = [] ∧
      (routeJsm ⟨[("getinfo version".data, some 7)], [], [], false⟩ "500 oops".data).1.delivs
        = [] ∧
      (routeJsm ⟨[("getinfo version".data, some 7)], [], [], false⟩ "500 oops".data).1.queue
        = [] ∧
      (routeJsm ⟨[("getinfo version".data, some 7)], [], [], false⟩ "500 oops".data).2.1
        = ["500 oops".data]) :=
  ⟨by decide, error_reply_handling "getinfo version".data 7 [] [] [] "500 oops".data (by decide)⟩

/-- C7 counterexample: the SENTCONNECT guard is keyed by circuit id, not by
domain.  After circuit 4 resolves `example.com`, a SENTCONNECT on the
previously unseen circuit 9 whose Target has the same domain issues a fresh
pair of GETINFO batches and overwrites the stored node data for
`example.com`. -/
theorem domain_first_circuit_counterexample :
    (streamSentConnect demoNS demoCountry
        (streamSentConnect demoNS demoCountry demoTracker
          "4".data "example.com:443".data).state
        "9".data "example.com:80".data).batches ≠ [] ∧
    assocGet (streamSentConnect demoNS demoCountry
        (streamSentConnect demoNS demoCountry demoTracker
          "4".data "example.com:443".data).state
        "9".data "example.com:80".data).state.domainToNodeDataMap "example.com".data ≠
      assocGet (streamSentConnect demoNS demoCountry demoTracker
        "4".data "example.com:443".data).state.domainToNodeDataMap "example.com".data := by
  constructor
  · decide
  · decide

/-- C7 amended: the domain-to-nodes map is assigned at most once per
CIRCUIT: a SENTCONNECT event on a circuit already present in
circuitIdToDomainMap is a complete no-op (no GETINFO batch, no state
change, no error).  The first-circuit-wins-per-DOMAIN property claimed by
the spec does not hold: a later, previously unseen circuit whose Target has
the same domain issues a further GETINFO batch and overwrites the domain's
stored node data (see the counterexample). -/
theorem circuit_assignment_once (getNS : List Char → List Char × List Char)
    (getCountry : List Char → List Char) (st : Tracker) (cid tgt : List Char)
    (h : (assocGet st.circuitIdToDomainMap cid).isSome = true) :
    streamSentConnect getNS getCountry st cid tgt = ⟨st, [], none⟩ := by
  unfold streamSentConnect
  have hne : (assocGet st.circuitIdToDomainMap cid).isNone = false := by
    rcases hx : assocGet st.circuitIdToDomainMap cid with _ | v
    · rw [hx] at h
      simp at h
    · rfl
  rw [if_neg (by simp [hne])]

/-- C7 witness: a second SENTCONNECT for circuit 4 (already bound to
`example.com`) is a no-op. -/
theorem circuit_assignment_once_witness :
    (assocGet (streamSentConnect demoNS demoCountry demoTracker
        "4".data "example.com:443".data).state.circuitIdToDomainMap
      "4".data).isSome = true ∧
    streamSentConnect demoNS demoCountry
        (streamSentConnect demoNS demoCountry demoTracker
          "4".data "example.com:443".data).state
        "4".data "other.example.com:80".data =
      ⟨(streamSentConnect demoNS demoCountry demoTracker
          "4".data "example.com:443".data).state, [], none⟩ :=
  ⟨by decide,
   circuit_assignment_once demoNS demoCountry
     (streamSentConnect demoNS demoCountry demoTracker
       "4".data "example.com:443".data).state
     "4".data "other.example.com:80".data (by decide)⟩

/-- C9 counterexample: a STREAM SENTCONNECT whose CircuitID has no entry in
the circuits map does NOT complete cleanly: reading
`circuitData[CircuitID].circuit` throws a TypeError (caught only by the
socket pump's error path), and the circuit-to-domain binding made just
before the throw persists.  It does, however, issue no GETINFO and leave
the domain-to-nodes map unchanged. -/
theorem unknown_circuit_counterexample :
    (streamSentConnect demoNS demoCountry ⟨[], [], []⟩
        "7".data "example.com:443".data).err
      = some "TypeError: circuitData[CircuitID] is undefined" ∧
    ¬ ((streamSentConnect demoNS demoCountry ⟨[], [], []⟩
        "7".data "example.com:443".data).err = none) ∧
    (streamSentConnect demoNS demoCountry ⟨[], [], []⟩
        "7".data "example.com:443".data).state.circuitIdToDomainMap
      = [("7".data, "example.com".data)] := by
  refine ⟨rfl, by decide, by decide⟩

/-- C9 amended: for a SENTCONNECT event on an unseen circuit id absent from
the circuits map, the handler issues no GETINFO request and leaves the
domain-to-nodes map unchanged, but it does not complete silently: it first
records the circuit-to-domain binding and then raises a TypeError. -/
theorem unknown_circuit_skip (getNS : List Char → List Char × List Char)
    (getCountry : List Char → List Char) (st : Tracker) (cid tgt : List Char)
    (h1 : assocGet st.circuitData cid = none)
    (h2 : assocGet st.circuitIdToDomainMap cid = none) :
    (streamSentConnect getNS getCountry st cid tgt).batches = [] ∧
    (streamSentConnect getNS getCountry st cid tgt).state.domainToNodeDataMap
      = st.domainToNodeDataMap ∧
    (streamSentConnect getNS getCountry st cid tgt).err.isSome = true ∧
    (streamSentConnect getNS getCountry st cid tgt).state.circuitIdToDomainMap
      = assocSet st.circuitIdToDomainMap cid
          (tgt.takeWhile (fun c => !(c = ':'))) := by
  unfold streamSentConnect
  rw [h2, h1]
  exact ⟨rfl, rfl, rfl, rfl⟩

/-- C9 witness: stream on circuit 7 with an empty tracker. -/
theorem unknown_circuit_skip_witness :
    (assocGet (⟨[], [], []⟩ : Tracker).circuitData "7".data = none ∧
      assocGet (⟨[], [], []⟩ : Tracker).circuitIdToDomainMap "7".data = none) ∧
    ((streamSentConnect demoNS demoCountry ⟨[], [], []⟩
        "7".data "example.com:443".data).batches = [] ∧
      (streamSentConnect demoNS demoCountry ⟨[], [], []⟩
        "7".data "example.com:443".data).state.domainToNodeDataMap
        = (⟨[], [], []⟩ : Tracker).domainToNodeDataMap ∧
      (streamSentConnect demoNS demoCountry ⟨[], [], []⟩
        "7".data "example.com:443".data).err.isSome = true ∧
      (streamSentConnect demoNS demoCountry ⟨[], [], []⟩
        "7".data "example.com:443".data).state.circuitIdToDomainMap
        = assocSet (⟨[], [], []⟩ : Tracker).circuitIdToDomainMap "7".data
            ("example.com:443".data.takeWhile (fun c => !(c = ':')))) :=
  ⟨⟨by decide, by decide⟩,
   unknown_circuit_skip demoNS demoCountry ⟨[], [], []⟩
     "7".data "example.com:443".data (by decide) (by decide)⟩

/-- C10: a deregistration handle (or removeCallback) removes every
registration sharing the identical callback function, not only the one it
was returned for: registering the same callback under two regexes and then
removing it leaves the dispatcher exactly as removing it from the original
state, and the callback is never invoked for any later message; a null
callback is never stored, and its returned handle is a no-op. -/
theorem callback_removal (rMatch : Nat → List Char → Bool)
    (st : List (Nat × Nat)) (r1 r2 : Nat) (cb : Nat) (m : List Char) :
    removeCallback (addCallback (addCallback st r1 (some cb)) r2 (some cb)) (some cb)
      = removeCallback st (some cb) ∧
    cb ∉ onString rMatch
        (removeCallback (addCallback (addCallback st r1 (some cb)) r2 (some cb))
          (some cb)) m ∧
    addCallback st r1 none = st ∧
    removeCallback st none = st := by
  refine ⟨?_, ?_, rfl, ?_⟩
  · simp [addCallback, removeCallback, List.filter_append]
  · intro hmem
    simp only [onString, removeCallback, List.mem_map, List.mem_filter] at hmem
    obtain ⟨p, ⟨⟨hmem2, hne⟩, hmatch⟩, hcb⟩ := hmem
    simp only [Bool.not_eq_true', beq_eq_false_iff_ne, ne_eq, Option.some.injEq] at hne
    exact hne hcb
  · simp [removeCallback]

theorem nsid_data (fp : String) :
    ("ns/id/" ++ fp).data = 'n' :: 's' :: '/' :: 'i' :: 'd' :: '/' :: fp.data :=
  (String.data_append "ns/id/" fp).trans rfl

/-- No exact entry of the capability table matches `ns/id/<fp>` for a
nonempty fingerprint. -/
theorem nsid_lookup_none (fp : String) (h1 : fp ≠ "") :
    lookupTag ("ns/id/" ++ fp) = none := by
  have hd := nsid_data fp
  rw [lookupTag, Option.map_eq_none', List.find?_eq_none]
  intro x hx
  simp only [valueStringParsers] at hx
  simp only [decide_eq_true_eq]
  intro heq
  fin_cases hx <;>
    rw [String.ext_iff, hd] at heq <;>
    first
    | (have h6 : _ = (['n', 's', '/', 'i', 'd', '/'] : List Char) :=
         congrArg (List.take 6) heq
       exact absurd h6 (by decide))
    | (have hlen := congrArg List.length heq
       have hL : ("ns/id/" : String).data.length = 6 := rfl
       rw [hL] at hlen
       simp only [List.length_cons] at hlen
       have h0 : fp.data.length = 0 := by omega
       exact h1 (String.ext (List.length_eq_zero.mp h0)))

/-- The prefix through the last slash of `ns/id/<fp>` is `ns/id/` when the
fingerprint itself contains no slash. -/
theorem throughLastSlash_nsid (fp : String) (h2 : fp.data.contains '/' = false) :
    throughLastSlash ("ns/id/" ++ fp) = "ns/id/" := by
  unfold throughLastSlash
  apply String.ext
  show (("ns/id/" ++ fp).data.reverse.dropWhile (fun c => !(c = '/'))).reverse
      = "ns/id/".data
  rw [nsid_data fp,
    show ('n' :: 's' :: '/' :: 'i' :: 'd' :: '/' :: fp.data)
        = ['n', 's', '/', 'i', 'd', '/'] ++ fp.data from rfl,
    List.reverse_append]
  have hall : fp.data.reverse.dropWhile (fun c => !(c = '/')) = [] := by
    rw [List.dropWhile_eq_nil_iff]
    intro x hxmem
    have hx2 : x ∈ fp.data := List.mem_reverse.mp hxmem
    simp only [Bool.not_eq_true']
    by_cases hxe : x = '/'
    · exfalso
      subst hxe
      have hc : fp.data.contains '/' = true := List.elem_iff.mpr hx2
      rw [h2] at hc
      exact absurd hc (by decide)
    · exact decide_eq_false hxe
  rw [List.dropWhile_append, hall]
  rfl

/-- C8 counterexample: `ns/id/<fp>` does NOT resolve to a parse function:
the capability table maps the prefix `ns/id/` to not-supported, so local
key validation rejects the request with "Unsupported key." instead of
returning structured data. -/
theorem nsid_key_counterexample :
    getValueStringParser "ns/id/20BC91DC525C3DC9974B29FBEAB51230DE024C44"
      = PTag.notSupported ∧
    getInfoMultiple ["ns/id/20BC91DC525C3DC9974B29FBEAB51230DE024C44"]
      = .error "Unsupported key." := by
  exact ⟨by decide, rfl⟩

/-- C8 amended: for every nonempty fingerprint fp containing no slash, the
key `ns/id/<fp>` resolves, via the prefix through its last slash, to the
`ns/id/` entry of the capability table, which is marked not-supported;
hence tor.getInfoMultiple on such a key fails local validation with
"Unsupported key." and never returns a structured value. -/
theorem nsid_key_not_supported (fp : String) (h1 : fp ≠ "")
    (h2 : fp.data.contains '/' = false) :
    getValueStringParser ("ns/id/" ++ fp) = PTag.notSupported ∧
    getInfoMultiple ["ns/id/" ++ fp] = .error "Unsupported key." := by
  have hmain : getValueStringParser ("ns/id/" ++ fp) = PTag.notSupported := by
    unfold getValueStringParser
    rw [nsid_lookup_none fp h1, throughLastSlash_nsid fp h2]
    rfl
  refine ⟨hmain, ?_⟩
  simp only [getInfoMultiple, List.map_cons, List.map_nil, hmain]
  rfl

/-- C8 witness: the concrete fingerprint from the display code. -/
theorem nsid_key_not_supported_witness :
    (("20BC91DC525C3DC9974B29FBEAB51230DE024C44" : String) ≠ "" ∧
      ("20BC91DC525C3DC9974B29FBEAB51230DE024C44" : String).data.contains '/' = false) ∧
    (getValueStringParser ("ns/id/" ++ "20BC91DC525C3DC9974B29FBEAB51230DE024C44")
        = PTag.notSupported ∧
      getInfoMultiple ["ns/id/" ++ "20BC91DC525C3DC9974B29FBEAB51230DE024C44"]
        = .error "Unsupported key.") :=
  ⟨⟨by decide, by decide⟩,
   nsid_key_not_supported "20BC91DC525C3DC9974B29FBEAB51230DE024C44"
     (by decide) (by decide)⟩

end ControlPort
